import Mathlib

/-!
Verification of the per-scope namespace-resolution record
(`crates/ra_hir_def/src/item_scope.rs`): a shallow embedding of `ItemScope`,
`PerNs`, the builtin scope and the `From<ModuleDefId> for PerNs`
classification, together with theorems settling the spec's claims about
them.  Hash maps are embedded as association lists (lookup finds the first
matching key; insertion replaces the first matching entry or appends).
-/

/-- Interned names (`hir_expand::name::Name`): an identifier type with
decidable equality. -/
abbrev Name := String

/-- The interned name "i32", used by the shadow-mode and entries
scenarios. -/
def nameI32 : Name := "i32"

/-- A sample interned name for merge scenarios. -/
def nameA : Name := "a"

/-- A sample interned name for macro scenarios. -/
def nameM : Name := "m"

/-- Opaque implementation-block identifier (`ImplId`). -/
structure ImplId where
  id : Nat
deriving DecidableEq, Repr

/-- Opaque macro identifier (`MacroDefId`). -/
structure MacroDefId where
  id : Nat
deriving DecidableEq, Repr

/-- Opaque builtin-type identifier (`BuiltinType`). -/
structure BuiltinType where
  id : Nat
deriving DecidableEq, Repr

/-- Algebraic-data-type identifiers (`AdtId`): structure, union or enum. -/
inductive AdtId where
  | StructId (id : Nat)
  | UnionId (id : Nat)
  | EnumId (id : Nat)
deriving DecidableEq, Repr

/-- The exhaustive tagged item-identifier type (`ModuleDefId`). -/
inductive ModuleDefId where
  | ModuleId (id : Nat)
  | FunctionId (id : Nat)
  | AdtId (adt : AdtId)
  | EnumVariantId (id : Nat)
  | ConstId (id : Nat)
  | StaticId (id : Nat)
  | TraitId (id : Nat)
  | TypeAliasId (id : Nat)
  | BuiltinType (b : BuiltinType)
deriving DecidableEq, Repr

/-- Modelled from the spec: the Namespace Record (`PerNs`, defined in the
crate's `per_ns` module, which is not part of the sources here) — three
independent optional slots for the type, value and macro namespaces, as
used field-by-field throughout `item_scope.rs`. -/
structure PerNs where
  types : Option ModuleDefId
  values : Option ModuleDefId
  macros : Option MacroDefId
deriving DecidableEq, Repr

/-- Modelled from the spec: `PerNs::none()` — the all-empty record,
which is also `PerNs::default()` used by `entry(..).or_default()`. -/
def PerNs.none : PerNs := ⟨Option.none, Option.none, Option.none⟩

/-- Modelled from the spec: the type-only constructor `PerNs::types`. -/
def PerNs.mkTypes (t : ModuleDefId) : PerNs := ⟨some t, Option.none, Option.none⟩

/-- Modelled from the spec: the value-only constructor `PerNs::values`. -/
def PerNs.mkValues (v : ModuleDefId) : PerNs := ⟨Option.none, some v, Option.none⟩

/-- Modelled from the spec: the macro-only constructor `PerNs::macros`. -/
def PerNs.mkMacros (m : MacroDefId) : PerNs := ⟨Option.none, Option.none, some m⟩

/-- Modelled from the spec: the type-and-value constructor `PerNs::both`. -/
def PerNs.mkBoth (t v : ModuleDefId) : PerNs := ⟨some t, some v, Option.none⟩

/-- Modelled from the spec: the accessor `PerNs::take_types`. -/
def PerNs.take_types (p : PerNs) : Option ModuleDefId := p.types

/-- Modelled from the spec: the accessor `PerNs::take_values`. -/
def PerNs.take_values (p : PerNs) : Option ModuleDefId := p.values

/-- Modelled from the spec: the accessor `PerNs::take_macros`. -/
def PerNs.take_macros (p : PerNs) : Option MacroDefId := p.macros

/-- Lookup in an association-list map (`FxHashMap::get`): first binding
for the key, if any. -/
def lookupMap {β : Type} : List (Name × β) → Name → Option β
  | [], _ => Option.none
  | (k', v) :: rest, k => if k' = k then some v else lookupMap rest k

/-- Insertion into an association-list map (`FxHashMap::insert` /
writing through `entry`): replaces the first binding for the key, or
appends a new one. -/
def insertMap {β : Type} : List (Name × β) → Name → β → List (Name × β)
  | [], k, v => [(k, v)]
  | (k', v') :: rest, k, v =>
      if k' = k then (k, v) :: rest else (k', v') :: insertMap rest k v

/-- Modelled from the spec: `BuiltinType::ALL` — the fixed, externally
supplied catalog of (name, builtin-type-identifier) pairs; the spec's
scenarios require at least an entry for the primitive name "i32". -/
def BuiltinType.ALL : List (Name × BuiltinType) :=
  [("char", ⟨0⟩), ("bool", ⟨1⟩), ("str", ⟨2⟩),
   ("i8", ⟨3⟩), ("i16", ⟨4⟩), ("i32", ⟨5⟩), ("i64", ⟨6⟩), ("i128", ⟨7⟩),
   ("isize", ⟨8⟩),
   ("u8", ⟨9⟩), ("u16", ⟨10⟩), ("u32", ⟨11⟩), ("u64", ⟨12⟩), ("u128", ⟨13⟩),
   ("usize", ⟨14⟩),
   ("f32", ⟨15⟩), ("f64", ⟨16⟩)]

/-- The builtin namespace table (`BUILTIN_SCOPE`): each builtin type name
mapped to a type-only record holding its identifier. -/
def BUILTIN_SCOPE : List (Name × PerNs) :=
  BuiltinType.ALL.map (fun p => (p.1, PerNs.mkTypes (ModuleDefId.BuiltinType p.2)))

/-- Shadow mode for builtin types that can be shadowed by modules
(`BuiltinShadowMode`). -/
inductive BuiltinShadowMode where
  | Module
  | Other
deriving DecidableEq, Repr

/-- The per-scope resolution state (`ItemScope`). -/
structure ItemScope where
  visible : List (Name × PerNs)
  defs : List ModuleDefId
  impls : List ImplId
  legacy_macros : List (Name × MacroDefId)
deriving DecidableEq, Repr

/-- The empty scope (`ItemScope::default()`). -/
def ItemScope.empty : ItemScope := ⟨[], [], [], []⟩

/-- Embeds `ItemScope::entries`: the scope's own visible entries chained with the
whole builtin table, without deduplication. -/
def ItemScope.entries (s : ItemScope) : List (Name × PerNs) :=
  s.visible ++ BUILTIN_SCOPE

/-- Embeds `ItemScope::declarations`: the recorded declarations in order. -/
def ItemScope.declarations (s : ItemScope) : List ModuleDefId := s.defs

/-- Embeds `ItemScope::get`: point lookup under a shadow mode. -/
def ItemScope.get (s : ItemScope) (name : Name) (shadow : BuiltinShadowMode) :
    Option PerNs :=
  match shadow with
  | BuiltinShadowMode.Module =>
      (lookupMap s.visible name).orElse (fun _ => lookupMap BUILTIN_SCOPE name)
  | BuiltinShadowMode.Other =>
      let item := lookupMap s.visible name
      match item.bind PerNs.take_types with
      | some (ModuleDefId.ModuleId _) =>
          (lookupMap BUILTIN_SCOPE name).orElse (fun _ => item)
      | _ => item.orElse (fun _ => lookupMap BUILTIN_SCOPE name)

/-- Embeds `ItemScope::define_def`: append a declaration. -/
def ItemScope.define_def (s : ItemScope) (d : ModuleDefId) : ItemScope :=
  { s with defs := s.defs ++ [d] }

/-- Embeds `ItemScope::get_legacy_macro`: current legacy binding for a name. -/
def ItemScope.get_legacy_macro (s : ItemScope) (name : Name) : Option MacroDefId :=
  lookupMap s.legacy_macros name

/-- Embeds `ItemScope::define_impl`: append an implementation block. -/
def ItemScope.define_impl (s : ItemScope) (imp : ImplId) : ItemScope :=
  { s with impls := s.impls ++ [imp] }

/-- Embeds `ItemScope::define_legacy_macro`: unconditionally (re)bind a legacy
macro name. -/
def ItemScope.define_legacy_macro (s : ItemScope) (name : Name) (mac : MacroDefId) :
    ItemScope :=
  { s with legacy_macros := insertMap s.legacy_macros name mac }

/-- Embeds `ItemScope::push_res`: merge a candidate record into the slot for
`name`, filling only unset namespace slots, and report whether anything
changed.  The `entry(name).or_default()` of the source is embedded as a
lookup defaulting to the empty record followed by a write-back. -/
def ItemScope.push_res (s : ItemScope) (name : Name) (d : PerNs) :
    ItemScope × Bool :=
  let e0 := (lookupMap s.visible name).getD PerNs.none
  let c1 := e0.types.isNone && d.types.isSome
  let e1 := if c1 then { e0 with types := d.types } else e0
  let c2 := e1.values.isNone && d.values.isSome
  let e2 := if c2 then { e1 with values := d.values } else e1
  let c3 := e2.macros.isNone && d.macros.isSome
  let e3 := if c3 then { e2 with macros := d.macros } else e2
  ({ s with visible := insertMap s.visible name e3 }, c1 || c2 || c3)

/-- Embeds `ItemScope::collect_resolutions`: a copy of the visible table. -/
def ItemScope.collect_resolutions (s : ItemScope) : List (Name × PerNs) :=
  s.visible

/-- Embeds `ItemScope::collect_legacy_macros`: a copy of the legacy macro table. -/
def ItemScope.collect_legacy_macros (s : ItemScope) : List (Name × MacroDefId) :=
  s.legacy_macros

/-- Item Classification (`impl From<ModuleDefId> for PerNs`): the namespace
record an item kind occupies when declared. -/
def PerNs.fromModuleDefId (d : ModuleDefId) : PerNs :=
  match d with
  | ModuleDefId.ModuleId _ => PerNs.mkTypes d
  | ModuleDefId.FunctionId _ => PerNs.mkValues d
  | ModuleDefId.AdtId adt =>
      match adt with
      | AdtId.StructId _ | AdtId.UnionId _ => PerNs.mkBoth d d
      | AdtId.EnumId _ => PerNs.mkTypes d
  | ModuleDefId.EnumVariantId _ => PerNs.mkBoth d d
  | ModuleDefId.ConstId _ | ModuleDefId.StaticId _ => PerNs.mkValues d
  | ModuleDefId.TraitId _ => PerNs.mkTypes d
  | ModuleDefId.TypeAliasId _ => PerNs.mkTypes d
  | ModuleDefId.BuiltinType _ => PerNs.mkTypes d

/-! ### Helper lemmas about the association-list map -/

theorem lookupMap_insertMap_self {β : Type} (m : List (Name × β)) (k : Name) (v : β) :
    lookupMap (insertMap m k v) k = some v := by
  induction m with
  | nil => simp [insertMap, lookupMap]
  | cons p rest ih =>
      obtain ⟨k', v'⟩ := p
      by_cases h : k' = k
      · simp [insertMap, lookupMap, h]
      · simp [insertMap, lookupMap, h, ih]

theorem mem_fst_insertMap {β : Type} (m : List (Name × β)) (k : Name) (v : β) :
    k ∈ (insertMap m k v).map Prod.fst := by
  induction m with
  | nil => simp [insertMap]
  | cons p rest ih =>
      obtain ⟨k', v'⟩ := p
      by_cases h : k' = k
      · simp [insertMap, h]
      · simp only [insertMap, if_neg h, List.map_cons, List.mem_cons]
        right
        exact ih

/-- Claim C1: for every scope, name and candidate, `push_res` adopts the
candidate's binding in each of the three namespaces exactly when the
current binding there is absent and the candidate has one, never
overwrites a set slot, and returns true iff at least one slot changed. -/
theorem push_res_merge_spec (s : ItemScope) (name : Name) (d : PerNs) :
    lookupMap (s.push_res name d).1.visible name = some
      { types :=
          if ((lookupMap s.visible name).getD PerNs.none).types = Option.none
              ∧ d.types ≠ Option.none
          then d.types else ((lookupMap s.visible name).getD PerNs.none).types,
        values :=
          if ((lookupMap s.visible name).getD PerNs.none).values = Option.none
              ∧ d.values ≠ Option.none
          then d.values else ((lookupMap s.visible name).getD PerNs.none).values,
        macros :=
          if ((lookupMap s.visible name).getD PerNs.none).macros = Option.none
              ∧ d.macros ≠ Option.none
          then d.macros else ((lookupMap s.visible name).getD PerNs.none).macros }
    ∧ ((s.push_res name d).2 = true ↔
        (((lookupMap s.visible name).getD PerNs.none).types = Option.none
            ∧ d.types ≠ Option.none)
        ∨ (((lookupMap s.visible name).getD PerNs.none).values = Option.none
            ∧ d.values ≠ Option.none)
        ∨ (((lookupMap s.visible name).getD PerNs.none).macros = Option.none
            ∧ d.macros ≠ Option.none)) := by
  unfold ItemScope.push_res
  rcases hE : (lookupMap s.visible name).getD PerNs.none with ⟨t, v, m⟩
  rcases d with ⟨dt, dv, dm⟩
  simp only [hE]
  cases t <;> cases dt <;> cases v <;> cases dv <;> cases m <;> cases dm <;>
    simp [lookupMap_insertMap_self]

/-- Claim C2: Item Classification is total and matches the table — module,
trait, type alias, builtin type and enum occupy only the type namespace;
function, constant and static only the value namespace; structure, union
and enum variant both type and value with the same identifier. -/
theorem fromModuleDefId_classification :
    (∀ n, PerNs.fromModuleDefId (ModuleDefId.ModuleId n)
        = ⟨some (ModuleDefId.ModuleId n), Option.none, Option.none⟩)
    ∧ (∀ n, PerNs.fromModuleDefId (ModuleDefId.TraitId n)
        = ⟨some (ModuleDefId.TraitId n), Option.none, Option.none⟩)
    ∧ (∀ n, PerNs.fromModuleDefId (ModuleDefId.TypeAliasId n)
        = ⟨some (ModuleDefId.TypeAliasId n), Option.none, Option.none⟩)
    ∧ (∀ b, PerNs.fromModuleDefId (ModuleDefId.BuiltinType b)
        = ⟨some (ModuleDefId.BuiltinType b), Option.none, Option.none⟩)
    ∧ (∀ n, PerNs.fromModuleDefId (ModuleDefId.AdtId (AdtId.EnumId n))
        = ⟨some (ModuleDefId.AdtId (AdtId.EnumId n)), Option.none, Option.none⟩)
    ∧ (∀ n, PerNs.fromModuleDefId (ModuleDefId.FunctionId n)
        = ⟨Option.none, some (ModuleDefId.FunctionId n), Option.none⟩)
    ∧ (∀ n, PerNs.fromModuleDefId (ModuleDefId.ConstId n)
        = ⟨Option.none, some (ModuleDefId.ConstId n), Option.none⟩)
    ∧ (∀ n, PerNs.fromModuleDefId (ModuleDefId.StaticId n)
        = ⟨Option.none, some (ModuleDefId.StaticId n), Option.none⟩)
    ∧ (∀ n, PerNs.fromModuleDefId (ModuleDefId.AdtId (AdtId.StructId n))
        = ⟨some (ModuleDefId.AdtId (AdtId.StructId n)),
           some (ModuleDefId.AdtId (AdtId.StructId n)), Option.none⟩)
    ∧ (∀ n, PerNs.fromModuleDefId (ModuleDefId.AdtId (AdtId.UnionId n))
        = ⟨some (ModuleDefId.AdtId (AdtId.UnionId n)),
           some (ModuleDefId.AdtId (AdtId.UnionId n)), Option.none⟩)
    ∧ (∀ n, PerNs.fromModuleDefId (ModuleDefId.EnumVariantId n)
        = ⟨some (ModuleDefId.EnumVariantId n),
           some (ModuleDefId.EnumVariantId n), Option.none⟩) :=
  ⟨fun _ => rfl, fun _ => rfl, fun _ => rfl, fun _ => rfl, fun _ => rfl,
   fun _ => rfl, fun _ => rfl, fun _ => rfl, fun _ => rfl, fun _ => rfl,
   fun _ => rfl⟩

/-- Claim C3: `get` under Module mode returns the scope's own record when
present, else the builtin entry; under Other mode it returns the builtin
entry when the local record's type slot references a module and the
builtin table has the name, and otherwise the local record if present,
else the builtin entry; in particular a local type-only module binding
for a builtin name is shadowed by the builtin in Other mode and wins in
Module mode. -/
theorem get_shadow_modes (s : ItemScope) (name : Name) :
    (∀ r, lookupMap s.visible name = some r →
        s.get name BuiltinShadowMode.Module = some r)
    ∧ (lookupMap s.visible name = Option.none →
        s.get name BuiltinShadowMode.Module = lookupMap BUILTIN_SCOPE name)
    ∧ (∀ r b, lookupMap s.visible name = some r →
        (∃ m, r.take_types = some (ModuleDefId.ModuleId m)) →
        lookupMap BUILTIN_SCOPE name = some b →
        s.get name BuiltinShadowMode.Other = some b)
    ∧ (∀ r, lookupMap s.visible name = some r →
        ((∀ m, r.take_types ≠ some (ModuleDefId.ModuleId m))
          ∨ lookupMap BUILTIN_SCOPE name = Option.none) →
        s.get name BuiltinShadowMode.Other = some r)
    ∧ (lookupMap s.visible name = Option.none →
        s.get name BuiltinShadowMode.Other = lookupMap BUILTIN_SCOPE name)
    ∧ ((ItemScope.mk [(nameI32, PerNs.mkTypes (ModuleDefId.ModuleId 0))] [] [] []).get
          nameI32 BuiltinShadowMode.Other
        = some (PerNs.mkTypes (ModuleDefId.BuiltinType ⟨5⟩)))
    ∧ ((ItemScope.mk [(nameI32, PerNs.mkTypes (ModuleDefId.ModuleId 0))] [] [] []).get
          nameI32 BuiltinShadowMode.Module
        = some (PerNs.mkTypes (ModuleDefId.ModuleId 0))) := by
  refine ⟨?_, ?_, ?_, ?_, ?_, ?_, ?_⟩
  · intro r hr
    simp [ItemScope.get, hr, Option.orElse]
  · intro hr
    simp [ItemScope.get, hr, Option.orElse]
  · intro r b hr hm hb
    obtain ⟨m, hm⟩ := hm
    simp [ItemScope.get, hr, hm, hb, Option.orElse]
  · intro r hr hcond
    simp only [ItemScope.get, hr, Option.bind_some]
    rcases ht : r.take_types with _ | x
    · simp [ht, Option.orElse]
    · rcases x with n | n | a | n | n | n | n | n | b
      · rcases hcond with hnm | hb
        · exact absurd ht (hnm n)
        · simp [ht, hb, Option.orElse]
      all_goals simp [ht, Option.orElse]
  · intro hr
    simp [ItemScope.get, hr, Option.orElse]
  · decide
  · decide

/-- Witness for C3: in a scope whose local "i32" is a type-only module
binding, Other mode returns the builtin "i32" entry. -/
theorem get_shadow_modes_witness :
    (ItemScope.mk [(nameI32, PerNs.mkTypes (ModuleDefId.ModuleId 0))] [] [] []).get
        nameI32 BuiltinShadowMode.Other
      = some (PerNs.mkTypes (ModuleDefId.BuiltinType ⟨5⟩)) :=
  (get_shadow_modes
      (ItemScope.mk [(nameI32, PerNs.mkTypes (ModuleDefId.ModuleId 0))] [] [] [])
      nameI32).2.2.1
    (PerNs.mkTypes (ModuleDefId.ModuleId 0))
    (PerNs.mkTypes (ModuleDefId.BuiltinType ⟨5⟩))
    (by decide) ⟨0, rfl⟩ (by decide)

/-- Claim C10: when the local record's type slot references a module and
the builtin table has the name, Other-mode lookup returns the builtin
record in its entirety, so the local record's value and macro bindings
are not returned. -/
theorem get_other_module_returns_builtin (s : ItemScope) (name : Name)
    (r b : PerNs) (m : Nat)
    (hvis : lookupMap s.visible name = some r)
    (hty : r.take_types = some (ModuleDefId.ModuleId m))
    (hb : lookupMap BUILTIN_SCOPE name = some b) :
    s.get name BuiltinShadowMode.Other = some b
    ∧ (s.get name BuiltinShadowMode.Other).map PerNs.values = some b.values
    ∧ (s.get name BuiltinShadowMode.Other).map PerNs.macros = some b.macros := by
  have h : s.get name BuiltinShadowMode.Other = some b := by
    simp [ItemScope.get, hvis, hty, hb, Option.orElse]
  exact ⟨h, by rw [h]; rfl, by rw [h]; rfl⟩

/-- Witness for C10: a local "i32" record with module type slot, a value
binding and a macro binding is entirely replaced by the builtin entry in
Other mode. -/
theorem get_other_module_returns_builtin_witness :
    (ItemScope.mk [(nameI32, ⟨some (ModuleDefId.ModuleId 0),
        some (ModuleDefId.FunctionId 7), some ⟨3⟩⟩)] [] [] []).get
      nameI32 BuiltinShadowMode.Other
      = some (PerNs.mkTypes (ModuleDefId.BuiltinType ⟨5⟩)) :=
  (get_other_module_returns_builtin
      (ItemScope.mk [(nameI32, ⟨some (ModuleDefId.ModuleId 0),
          some (ModuleDefId.FunctionId 7), some ⟨3⟩⟩)] [] [] [])
      nameI32
      ⟨some (ModuleDefId.ModuleId 0), some (ModuleDefId.FunctionId 7), some ⟨3⟩⟩
      (PerNs.mkTypes (ModuleDefId.BuiltinType ⟨5⟩)) 0
      (by decide) rfl (by decide)).1

/-- Claim C4: first-wins — a bound (name, namespace) slot is never
overwritten by a later `push_res` call, and the change flag is raised
only when some previously-unbound slot exists, so an already-bound slot
is never reported as changed. -/
theorem push_res_first_wins (s : ItemScope) (name : Name) (d : PerNs) :
    (∀ v, ((lookupMap s.visible name).getD PerNs.none).types = some v →
        ((lookupMap (s.push_res name d).1.visible name).getD PerNs.none).types
          = some v)
    ∧ (∀ v, ((lookupMap s.visible name).getD PerNs.none).values = some v →
        ((lookupMap (s.push_res name d).1.visible name).getD PerNs.none).values
          = some v)
    ∧ (∀ v, ((lookupMap s.visible name).getD PerNs.none).macros = some v →
        ((lookupMap (s.push_res name d).1.visible name).getD PerNs.none).macros
          = some v)
    ∧ ((s.push_res name d).2 = true →
        ((lookupMap s.visible name).getD PerNs.none).types = Option.none
        ∨ ((lookupMap s.visible name).getD PerNs.none).values = Option.none
        ∨ ((lookupMap s.visible name).getD PerNs.none).macros = Option.none) := by
  unfold ItemScope.push_res
  rcases hE : (lookupMap s.visible name).getD PerNs.none with ⟨t, v, m⟩
  rcases d with ⟨dt, dv, dm⟩
  simp only [hE]
  cases t <;> cases dt <;> cases v <;> cases dv <;> cases m <;> cases dm <;>
    simp [lookupMap_insertMap_self]

/-- Witness for C4: a type slot bound to module 1 survives a later push
offering module 2 for the same slot. -/
theorem push_res_first_wins_witness :
    ((lookupMap (((ItemScope.mk [(nameA, PerNs.mkTypes (ModuleDefId.ModuleId 1))]
        [] [] []).push_res nameA (PerNs.mkTypes (ModuleDefId.ModuleId 2))).1.visible)
        nameA).getD PerNs.none).types
      = some (ModuleDefId.ModuleId 1) :=
  (push_res_first_wins
      (ItemScope.mk [(nameA, PerNs.mkTypes (ModuleDefId.ModuleId 1))] [] [] [])
      nameA (PerNs.mkTypes (ModuleDefId.ModuleId 2))).1
    (ModuleDefId.ModuleId 1) (by decide)

/-- Claim C5 counterexample: pushing an all-empty candidate into an empty
scope already returns changed = false on the first call, refuting the
claim that the first of two identical calls always yields true. -/
theorem push_res_twice_counterexample :
    (ItemScope.empty.push_res nameM PerNs.none).2 = false := by decide

/-- Claim C5 (amended): of two successive identical `push_res` calls the
second always returns changed = false, and the first returns true exactly
when the candidate offers a binding for a namespace slot that is not
already set. -/
theorem push_res_twice_second_false (s : ItemScope) (name : Name) (d : PerNs) :
    ((s.push_res name d).1.push_res name d).2 = false
    ∧ ((s.push_res name d).2 = true ↔
        (((lookupMap s.visible name).getD PerNs.none).types = Option.none
            ∧ d.types ≠ Option.none)
        ∨ (((lookupMap s.visible name).getD PerNs.none).values = Option.none
            ∧ d.values ≠ Option.none)
        ∨ (((lookupMap s.visible name).getD PerNs.none).macros = Option.none
            ∧ d.macros ≠ Option.none)) := by
  unfold ItemScope.push_res
  rcases hE : (lookupMap s.visible name).getD PerNs.none with ⟨t, v, m⟩
  rcases d with ⟨dt, dv, dm⟩
  simp only [hE, lookupMap_insertMap_self]
  cases t <;> cases dt <;> cases v <;> cases dv <;> cases m <;> cases dm <;>
    simp [lookupMap_insertMap_self]

/-- Folding `define_def` over a list of items appends them all to the
declarations, in order. -/
theorem declarations_foldl (items : List ModuleDefId) (s : ItemScope) :
    (items.foldl ItemScope.define_def s).declarations = s.declarations ++ items := by
  induction items generalizing s with
  | nil => simp [ItemScope.declarations]
  | cons d rest ih =>
      rw [List.foldl_cons, ih]
      simp [ItemScope.define_def, ItemScope.declarations]

/-- Claim C6: `define_legacy_macro` unconditionally overwrites the
binding (last write wins) and `get_legacy_macro` returns the most recent
binding, or absence when the name was never bound. -/
theorem legacy_macro_last_write_wins (s : ItemScope) (name : Name)
    (a b : MacroDefId) :
    ( ItemScope.get_legacy_macro (ItemScope.define_legacy_macro s name a) name
        = some a)
    ∧ ( ItemScope.get_legacy_macro
          (ItemScope.define_legacy_macro (ItemScope.define_legacy_macro s name a)
            name b) name
        = some b)
    ∧ (lookupMap s.legacy_macros name = Option.none →
        ItemScope.get_legacy_macro s name = Option.none) := by
  refine ⟨?_, ?_, ?_⟩
  · simp [ItemScope.get_legacy_macro, ItemScope.define_legacy_macro,
      lookupMap_insertMap_self]
  · simp [ItemScope.get_legacy_macro, ItemScope.define_legacy_macro,
      lookupMap_insertMap_self]
  · intro h
    simpa [ItemScope.get_legacy_macro] using h

/-- Witness for C6: binding macro 1 then macro 2 for the same name leaves
macro 2, and an empty scope resolves no legacy macro. -/
theorem legacy_macro_last_write_wins_witness :
    ( ItemScope.get_legacy_macro
        (ItemScope.define_legacy_macro
          (ItemScope.define_legacy_macro ItemScope.empty nameM ⟨1⟩) nameM ⟨2⟩)
        nameM = some ⟨2⟩)
    ∧ ItemScope.get_legacy_macro ItemScope.empty nameM = Option.none :=
  ⟨(legacy_macro_last_write_wins ItemScope.empty nameM ⟨1⟩ ⟨2⟩).2.1,
   (legacy_macro_last_write_wins ItemScope.empty nameM ⟨1⟩ ⟨2⟩).2.2 rfl⟩

/-- Claim C7: `entries` is the concatenation of the scope's own visible
entries with the whole builtin table, without deduplication, so a name
that is both locally bound and builtin yields two pairs. -/
theorem entries_concat_no_dedup (s : ItemScope) :
    (s.entries = s.visible ++ BUILTIN_SCOPE)
    ∧ (∀ n, (s.entries.filter (fun p => p.1 == n)).length
        = (s.visible.filter (fun p => p.1 == n)).length
          + (BUILTIN_SCOPE.filter (fun p => p.1 == n)).length)
    ∧ (((ItemScope.mk [(nameI32, PerNs.mkTypes (ModuleDefId.BuiltinType ⟨5⟩))]
          [] [] []).entries.filter (fun p => p.1 == nameI32)).length = 2) := by
  refine ⟨rfl, ?_, ?_⟩
  · intro n
    simp [ItemScope.entries, List.filter_append]
  · decide

/-- Claim C8: `define_def` appends the item to the declarations and does
not touch the visible table; `declarations` enumerates the recorded
identifiers in recording order. -/
theorem define_def_appends (s : ItemScope) (d : ModuleDefId) :
    ((s.define_def d).defs = s.defs ++ [d])
    ∧ ((s.define_def d).visible = s.visible)
    ∧ ((s.define_def d).declarations = s.declarations ++ [d])
    ∧ (∀ items : List ModuleDefId,
        (items.foldl ItemScope.define_def ItemScope.empty).declarations = items) := by
  refine ⟨rfl, rfl, rfl, ?_⟩
  intro items
  simpa [ItemScope.declarations, ItemScope.empty] using
    declarations_foldl items ItemScope.empty

/-- Claim C9: pushing an all-empty candidate for an absent name reports
changed = false yet inserts an all-empty record, so the name appears in
`entries` and in `collect_resolutions`. -/
theorem push_res_empty_candidate (s : ItemScope) (name : Name) (d : PerNs)
    (habs : lookupMap s.visible name = Option.none)
    (ht : d.types = Option.none) (hv : d.values = Option.none)
    (hm : d.macros = Option.none) :
    ((s.push_res name d).2 = false)
    ∧ (lookupMap ((s.push_res name d).1.visible) name = some PerNs.none)
    ∧ (name ∈ ((s.push_res name d).1.entries.map Prod.fst))
    ∧ (name ∈ ((s.push_res name d).1.collect_resolutions.map Prod.fst)) := by
  rcases d with ⟨dt, dv, dm⟩
  subst ht hv hm
  have hvis : (s.push_res name ⟨Option.none, Option.none, Option.none⟩).1.visible
      = insertMap s.visible name PerNs.none := by
    simp [ItemScope.push_res, habs, PerNs.none]
  refine ⟨?_, ?_, ?_, ?_⟩
  · simp [ItemScope.push_res, habs, PerNs.none]
  · rw [hvis]
    exact lookupMap_insertMap_self _ _ _
  · rw [ItemScope.entries, hvis]
    simp only [List.map_append, List.mem_append]
    left
    exact mem_fst_insertMap _ _ _
  · rw [ItemScope.collect_resolutions, hvis]
    exact mem_fst_insertMap _ _ _

/-- Witness for C9: pushing the all-empty record for a fresh name into
the empty scope reports no change yet makes the name visible. -/
theorem push_res_empty_candidate_witness :
    ((ItemScope.empty.push_res nameA PerNs.none).2 = false)
    ∧ (lookupMap ((ItemScope.empty.push_res nameA PerNs.none).1.visible) nameA
        = some PerNs.none)
    ∧ (nameA ∈ ((ItemScope.empty.push_res nameA PerNs.none).1.entries.map Prod.fst))
    ∧ (nameA ∈ ((ItemScope.empty.push_res nameA PerNs.none).1.collect_resolutions.map
        Prod.fst)) :=
  push_res_empty_candidate ItemScope.empty nameA PerNs.none rfl rfl rfl rfl
